import Mathlib

/-! # SmartXX modchip (`hw/xbox/modchip_smartxx.c`)

A shallow embedding of the flash command state machine, the bank table, the
CFI table and the two control registers of the SmartXX modchip device model,
followed by theorems about them.

Conventions of the embedding:

* C unsigned integers are `Nat`; a store into a narrower C type is written with
  an explicit `% 2 ^ w`.
* A C `assert` that fails, and an array index outside the bounds of its array,
  end the call with a `Fault` (`Except.error`).
* The global byte array `smartxx_raw` is carried as a field of the device
  record, since the embedding is pure.
* `DPRINTF` logging has no effect on the device and is left out, together with
  locals that exist only to be logged.
-/

set_option linter.unusedVariables false
set_option maxRecDepth 8192

namespace Smartxx

/-! ## Constants -/

def SMARTXX_REGISTER0 : Nat := 0
def SMARTXX_REGISTER1 : Nat := 1

def SMARTXX_FLASH_MANUF_ID : Nat := 0x01
def SMARTXX_FLASH_DEV_ID : Nat := 0xC4
def SMARTXX_FLASH_SIZE : Nat := 4 * 1024 * 1024

/-- One entry of the bank table: `struct SmartxxBank { offset; size; }`. -/
structure SmartxxBank_t where
  offset : Nat
  size : Nat
  deriving DecidableEq, Repr

/-- The table `SmartxxBank[11]`. -/
def SmartxxBank : List SmartxxBank_t :=
  [ ⟨0, 1 * 1024 * 1024⟩,      -- TSOP
    ⟨0x180000, 256 * 1024⟩,    -- Bootloader
    ⟨0x100000, 512 * 1024⟩,    -- SmartxxOS
    ⟨0x000000, 256 * 1024⟩,    -- Bank 1 256k
    ⟨0x040000, 256 * 1024⟩,    -- Bank 2 256k
    ⟨0x080000, 256 * 1024⟩,    -- Bank 3 256k
    ⟨0x0C0000, 256 * 1024⟩,    -- Bank 4 256k
    ⟨0x000000, 512 * 1024⟩,    -- Bank 1 512k
    ⟨0x080000, 512 * 1024⟩,    -- Bank 2 512k
    ⟨0x000000, 1024 * 1024⟩,   -- Bank 1 1M
    ⟨0x1C0000, 256 * 1024⟩ ]   -- Recovery + more SmartxxOS data + user settings

/-- The table `SmartxxFlashCFI[]` (256 bytes). -/
def SmartxxFlashCFI : List Nat :=
  [ /- 00h -/ 0xFF, 0xFF, 0xFF, 0xFF, 0xFF, 0xFF, 0xFF, 0xFF, 0xFF, 0xFF, 0xFF, 0xFF, 0xFF, 0xFF, 0xFF, 0xFF,
    /- 10h -/ 0xFF, 0xFF, 0xFF, 0xFF, 0xFF, 0xFF, 0xFF, 0xFF, 0xFF, 0xFF, 0xFF, 0xFF, 0xFF, 0xFF, 0xFF, 0xFF,
    /- 20h -/ 0x51, 0x51, 0x52, 0x52, 0x59, 0x59, 0x02, 0x02, 0x00, 0x00, 0x40, 0x40, 0x00, 0x00, 0x00, 0x00,
    /- 30h -/ 0x00, 0x00, 0x00, 0x00, 0x00, 0x00, 0x27, 0x27, 0x36, 0x36, 0x00, 0x00, 0x00, 0x00, 0x03, 0x03,
    /- 40h -/ 0x00, 0x00, 0x09, 0x09, 0x00, 0x00, 0x05, 0x05, 0x00, 0x00, 0x04, 0x04, 0x00, 0x00, 0x15, 0x15,
    /- 50h -/ 0x02, 0x02, 0x00, 0x00, 0x00, 0x00, 0x00, 0x00, 0x04, 0x04, 0x00, 0x00, 0x00, 0x00, 0x40, 0x40,
    /- 60h -/ 0x00, 0x00, 0x01, 0x01, 0x00, 0x00, 0x20, 0x20, 0x00, 0x00, 0x00, 0x00, 0x00, 0x00, 0x80, 0x80,
    /- 70h -/ 0x00, 0x00, 0x1E, 0x1E, 0x00, 0x00, 0x00, 0x00, 0x01, 0x01, 0x00, 0x00, 0x00, 0x00, 0x00, 0x00,
    /- 80h -/ 0x50, 0x50, 0x52, 0x52, 0x49, 0x49, 0x31, 0x31, 0x33, 0x33, 0x0C, 0x0C, 0x02, 0x02, 0x01, 0x01,
    /- 90h -/ 0x01, 0x01, 0x04, 0x04, 0x00, 0x00, 0x00, 0x00, 0x00, 0x00, 0x00, 0x00, 0x00, 0x00, 0x03, 0x03,
    /- A0h -/ 0x00, 0x00, 0x00, 0x00, 0x00, 0x00, 0x00, 0x00, 0x00, 0x00, 0x00, 0x00, 0x00, 0x00, 0x00, 0x00,
    /- B0h -/ 0x00, 0x00, 0x00, 0x00, 0x00, 0x00, 0x00, 0x00, 0x00, 0x00, 0x00, 0x00, 0x00, 0x00, 0x06, 0x06,
    /- C0h -/ 0x00, 0x00, 0x09, 0x09, 0x00, 0x00, 0x05, 0x05, 0x00, 0x00, 0x04, 0x04, 0x00, 0x00, 0x15, 0x15,
    /- D0h -/ 0x02, 0x02, 0x00, 0x00, 0x00, 0x00, 0x00, 0x00, 0x04, 0x04, 0x00, 0x00, 0x00, 0x00, 0x40, 0x40,
    /- E0h -/ 0x00, 0x00, 0x01, 0x01, 0x00, 0x00, 0x20, 0x20, 0x00, 0x00, 0x00, 0x00, 0x00, 0x00, 0x80, 0x80,
    /- F0h -/ 0x00, 0x00, 0x1E, 0x1E, 0x00, 0x00, 0x00, 0x00, 0x01, 0x01, 0x00, 0x00, 0x00, 0x00, 0x00, 0x00 ]

/-! ## Device state -/

/-- The enumeration `SmartxxMemoryState`. -/
inductive SmartxxMemoryState
  | SMARTXX_MEMORY_STATE_NORMAL
  | SMARTXX_MEMORY_STATE_CFI
  | SMARTXX_MEMORY_STATE_AUTOSELECT
  | SMARTXX_MEMORY_STATE_SECTOR_ERASE
  | SMARTXX_MEMORY_STATE_WRITE
  deriving DecidableEq, Repr

open SmartxxMemoryState

/-- The device record `SmartxxState`, without the QEMU bus and memory-region
plumbing, and with the global array `smartxx_raw` added as a field. -/
structure SmartxxState where
  sck : Bool
  cs : Bool
  mosi : Bool
  miso_1 : Bool
  miso_4 : Bool
  led : Nat
  bank_control : Nat
  recovery : Bool
  flash_state : SmartxxMemoryState
  flash_cycle : Nat
  smartxx_raw : Nat → Nat

/-- Ways a call can end without a result. -/
inductive Fault
  | assertion      -- a C `assert` failed
  | out_of_bounds  -- an array was indexed outside its bounds
  deriving DecidableEq, Repr

/-! ## Views of `smartxx_raw` as `uint8_t`, `uint16_t` and `uint32_t` arrays

The index is an element index, as in `flash_mem[offset / 2]`; the host is
little-endian. -/

def load8 (raw : Nat → Nat) (i : Nat) : Except Fault Nat :=
  if i < SMARTXX_FLASH_SIZE then .ok (raw i) else .error .out_of_bounds

def load16 (raw : Nat → Nat) (i : Nat) : Except Fault Nat :=
  if 2 * i + 1 < SMARTXX_FLASH_SIZE then
    .ok (raw (2 * i) + 256 * raw (2 * i + 1))
  else .error .out_of_bounds

def load32 (raw : Nat → Nat) (i : Nat) : Except Fault Nat :=
  if 4 * i + 3 < SMARTXX_FLASH_SIZE then
    .ok (raw (4 * i) + 256 * raw (4 * i + 1) + 65536 * raw (4 * i + 2)
          + 16777216 * raw (4 * i + 3))
  else .error .out_of_bounds

/-- Byte `j` of the little-endian representation of `v`. -/
def byte_of (v j : Nat) : Nat := v / 256 ^ j % 256

def store8 (raw : Nat → Nat) (i v : Nat) : Except Fault (Nat → Nat) :=
  if i < SMARTXX_FLASH_SIZE then
    .ok (fun a => if a = i then v % 256 else raw a)
  else .error .out_of_bounds

def store16 (raw : Nat → Nat) (i v : Nat) : Except Fault (Nat → Nat) :=
  if 2 * i + 1 < SMARTXX_FLASH_SIZE then
    .ok (fun a => if 2 * i ≤ a ∧ a < 2 * i + 2 then byte_of v (a - 2 * i) else raw a)
  else .error .out_of_bounds

def store32 (raw : Nat → Nat) (i v : Nat) : Except Fault (Nat → Nat) :=
  if 4 * i + 3 < SMARTXX_FLASH_SIZE then
    .ok (fun a => if 4 * i ≤ a ∧ a < 4 * i + 4 then byte_of v (a - 4 * i) else raw a)
  else .error .out_of_bounds

/-! ## Control registers -/

/-- `smartxx_io_write`. The local `flash_size` of the register-1 case is read
from the bank table only to be logged (for a bank index above 10 that read is
past the end of the table); it never reaches the device record and is not part
of the embedding. -/
def smartxx_io_write (s : SmartxxState) (addr val size : Nat) :
    Except Fault SmartxxState :=
  if addr = SMARTXX_REGISTER0 then
    if (val >>> 3) = 0 then
      .ok { s with led := val % 256 }
    else .error .assertion
  else if addr = SMARTXX_REGISTER1 then
    if (val &&& (1 <<< 7)) = 0 then
      .ok { s with
              sck := decide ((val &&& (1 <<< 6)) ≠ 0)
              cs := decide ((val &&& (1 <<< 5)) ≠ 0)
              mosi := decide ((val &&& (1 <<< 4)) ≠ 0)
              bank_control := val &&& 0xF }
    else .error .assertion
  else .ok s

/-- `smartxx_io_read`. -/
def smartxx_io_read (s : SmartxxState) (addr size : Nat) : Nat :=
  if addr = SMARTXX_REGISTER0 then
    0x55
  else if addr = SMARTXX_REGISTER1 then
    (((s.recovery.toNat <<< 7) ||| (s.miso_1.toNat <<< 5) ||| (s.miso_4.toNat <<< 4)
        ||| s.bank_control) % 2 ^ 32)
  else 0

/-! ## Flash region -/

/-- The two statements `offset %= bank.size; offset |= bank.offset;` that
`flash_read` and `flash_write` both run on the selected bank. -/
def bank_translate (bank : SmartxxBank_t) (offset : Nat) : Nat :=
  (offset % bank.size) ||| bank.offset

/-- `flash_read`. -/
def flash_read (s : SmartxxState) (offset size : Nat) : Except Fault Nat :=
  if s.flash_state = SMARTXX_MEMORY_STATE_NORMAL then
    match SmartxxBank[s.bank_control]? with
    | none => .error .out_of_bounds
    | some bank =>
      let offset := bank_translate bank offset
      if size = 1 then load8 s.smartxx_raw offset
      else if size = 2 then load16 s.smartxx_raw (offset / 2)
      else if size = 4 then load32 s.smartxx_raw (offset / 4)
      else .error .assertion
  else if s.flash_state = SMARTXX_MEMORY_STATE_CFI then
    .ok (SmartxxFlashCFI.getD
          ((if size = 1 then offset else (offset <<< 1) % 2 ^ 64) % SmartxxFlashCFI.length) 0)
  else if s.flash_state = SMARTXX_MEMORY_STATE_AUTOSELECT then
    if offset = 0 then .ok SMARTXX_FLASH_MANUF_ID
    else if offset = 2 then .ok SMARTXX_FLASH_DEV_ID
    else .ok 0
  else .ok 0

/-- The end of the program branch of `flash_write`: back to normal, cycle 1. -/
def commit (s : SmartxxState) (raw : Nat → Nat) : SmartxxState :=
  { s with smartxx_raw := raw
           flash_state := SMARTXX_MEMORY_STATE_NORMAL
           flash_cycle := 1 }

/-- `flash_write`. -/
def flash_write (s : SmartxxState) (offset value size : Nat) :
    Except Fault SmartxxState :=
  -- Reset
  if offset = 0x00 ∧ value = 0xF0 ∧ size = 1 then
    .ok { s with flash_state := SMARTXX_MEMORY_STATE_NORMAL, flash_cycle := 1 }
  else if s.flash_state = SMARTXX_MEMORY_STATE_WRITE then
    match SmartxxBank[s.bank_control]? with
    | none => .error .out_of_bounds
    | some bank =>
      let offset := bank_translate bank offset
      if size = 1 then (store8 s.smartxx_raw offset value).map (commit s)
      else if size = 2 then (store16 s.smartxx_raw (offset / 2) value).map (commit s)
      else if size = 4 then (store32 s.smartxx_raw (offset / 4) value).map (commit s)
      else .error .assertion
  else
    match s.flash_cycle with
    | 1 =>
      if offset = 0xAA ∧ value = 0x98 ∧ size = 1 then
        .ok { s with flash_state := SMARTXX_MEMORY_STATE_CFI }
      else if offset = 0xAAAA ∧ value = 0xAA ∧ size = 1 then
        .ok { s with flash_cycle := (s.flash_cycle + 1) % 256 }
      else .ok s
    | 2 =>
      if offset = 0x5555 ∧ value = 0x55 ∧ size = 1 then
        .ok { s with flash_cycle := (s.flash_cycle + 1) % 256 }
      else .ok s
    | 3 =>
      if offset = 0xAAAA ∧ value = 0x80 ∧ size = 1 then
        .ok { s with flash_cycle := (s.flash_cycle + 1) % 256 }
      else if offset = 0xAAAA ∧ value = 0x90 ∧ size = 1 then
        .ok { s with flash_state := SMARTXX_MEMORY_STATE_AUTOSELECT }
      else if offset = 0xAAAA ∧ value = 0xA0 ∧ size = 1 then
        .ok { s with flash_state := SMARTXX_MEMORY_STATE_WRITE }
      else .ok s
    | 4 =>
      if offset = 0xAAAA ∧ value = 0xAA ∧ size = 1 then
        .ok { s with flash_cycle := (s.flash_cycle + 1) % 256 }
      else .ok s
    | 5 =>
      if offset = 0x5555 ∧ value = 0x55 ∧ size = 1 then
        .ok { s with flash_cycle := (s.flash_cycle + 1) % 256 }
      else .ok s
    | 6 =>
      if value = 0x30 ∧ size = 1 then
        .ok { s with flash_state := SMARTXX_MEMORY_STATE_SECTOR_ERASE }
      else .ok s
    | _ => .ok s

/-- The "default state" block of `smartxx_realize`: `rom` is the flash dump read
into `smartxx_raw`, `s` the freshly allocated device record. -/
def smartxx_realize (s : SmartxxState) (rom : Nat → Nat) : SmartxxState :=
  { s with smartxx_raw := rom
           bank_control := 1
           recovery := true
           led := 1
           flash_state := SMARTXX_MEMORY_STATE_NORMAL
           flash_cycle := 1 }

/-- A run of flash writes, stopping at the first fault. -/
def flash_writes (s : SmartxxState) : List (Nat × Nat × Nat) → Except Fault SmartxxState
  | [] => .ok s
  | (offset, value, size) :: rest =>
    match flash_write s offset value size with
    | .ok s1 => flash_writes s1 rest
    | .error e => .error e

/-! ## Concrete devices used to evaluate the code -/

/-- A device in the program state on the bootloader bank, over an erased image. -/
def writing_device : SmartxxState :=
  { sck := false, cs := false, mosi := false, miso_1 := false, miso_4 := false,
    led := 1, bank_control := 1, recovery := true,
    flash_state := SMARTXX_MEMORY_STATE_WRITE, flash_cycle := 3,
    smartxx_raw := fun _ => 0xFF }

/-- The same device in the autoselect state. -/
def autoselect_device : SmartxxState :=
  { writing_device with flash_state := SMARTXX_MEMORY_STATE_AUTOSELECT }

/-- The same device in the CFI query state. -/
def cfi_device : SmartxxState :=
  { writing_device with flash_state := SMARTXX_MEMORY_STATE_CFI, flash_cycle := 1 }

/-- The same device as `smartxx_realize` leaves it: normal state, cycle 1. -/
def normal_device : SmartxxState :=
  smartxx_realize writing_device (fun _ => 0xFF)

/-- A device in the normal state on bank 0 whose image holds `a mod 256` at
index `a`, so that neighbouring bytes differ. -/
def ramp_device : SmartxxState :=
  { writing_device with bank_control := 0
                        flash_state := SMARTXX_MEMORY_STATE_NORMAL
                        flash_cycle := 1
                        smartxx_raw := fun a => a % 256 }

/-- The device `normal_device` after the erase unlock sequence. -/
def sector_erase_device : SmartxxState :=
  { normal_device with flash_state := SMARTXX_MEMORY_STATE_SECTOR_ERASE, flash_cycle := 6 }

/-- The device `normal_device` at command cycle 6, before the erase byte. -/
def cycle6_device : SmartxxState :=
  { normal_device with flash_cycle := 6 }

/-! ## Accesses and reachable states -/

/-- One access delivered to the device: the callbacks of the two
`MemoryRegionOps` tables `smartxx_flash_ops` and `smartxx_io_ops`. -/
inductive Access
  | flash_read (offset size : Nat)
  | flash_write (offset value size : Nat)
  | io_read (addr size : Nat)
  | io_write (addr val size : Nat)
  deriving DecidableEq, Repr

/-- The device record after one access. The two read callbacks return a value
and assign no field, so a read that returns leaves the record as it was. -/
def access (s : SmartxxState) : Access → Except Fault SmartxxState
  | .flash_read offset size => (flash_read s offset size).map (fun _ => s)
  | .flash_write offset value size => flash_write s offset value size
  | .io_read addr size => .ok s
  | .io_write addr val size => smartxx_io_write s addr val size

/-- The device states that `smartxx_realize` followed by any run of accesses
can produce. -/
inductive Reachable : SmartxxState → Prop
  | realize (s0 : SmartxxState) (rom : Nat → Nat) : Reachable (smartxx_realize s0 rom)
  | access {s s1 : SmartxxState} (a : Access) :
      Reachable s → access s a = .ok s1 → Reachable s1

/-- The commands that `flash_write` recognises at a command cycle, as listed
for the unmatched-step property: cycle 1: `0x98@0xAA` or `0xAA@0xAAAA`; cycle 2:
`0x55@0x5555`; cycle 3: `0x80`, `0x90` or `0xA0` at `0xAAAA`; cycle 4:
`0xAA@0xAAAA`; cycle 5: `0x55@0x5555`; cycle 6: value `0x30`; all of size 1. -/
def recognised (cycle offset value size : Nat) : Prop :=
  size = 1 ∧
  ((cycle = 1 ∧ ((offset = 0xAA ∧ value = 0x98) ∨ (offset = 0xAAAA ∧ value = 0xAA))) ∨
   (cycle = 2 ∧ offset = 0x5555 ∧ value = 0x55) ∨
   (cycle = 3 ∧ offset = 0xAAAA ∧ (value = 0x80 ∨ value = 0x90 ∨ value = 0xA0)) ∨
   (cycle = 4 ∧ offset = 0xAAAA ∧ value = 0xAA) ∨
   (cycle = 5 ∧ offset = 0x5555 ∧ value = 0x55) ∨
   (cycle = 6 ∧ value = 0x30))

/-! ## Bank table facts -/

/-- On a bank whose size is `2 ^ k` and whose offset is a multiple of it, the
or of `bank_translate` is an addition. -/
theorem bank_translate_aligned (k m x : Nat) :
    bank_translate ⟨2 ^ k * m, 2 ^ k⟩ x = 2 ^ k * m + x % 2 ^ k := by
  have hlt : x % 2 ^ k < 2 ^ k := Nat.mod_lt _ (Nat.two_pow_pos k)
  unfold bank_translate
  rw [Nat.or_comm]
  exact (Nat.mul_add_lt_is_or hlt m).symm

/-- Every entry of the bank table is a window of `2 ^ k` bytes at a multiple
of `2 ^ k`, ending inside the flash image. -/
theorem bank_table_aligned (b : Nat) (hb : b ≤ 10) :
    ∃ k m, SmartxxBank[b]? = some ⟨2 ^ k * m, 2 ^ k⟩ ∧
      2 ^ k * m + 2 ^ k ≤ SMARTXX_FLASH_SIZE := by
  interval_cases b
  · exact ⟨20, 0, by decide, by decide⟩
  · exact ⟨18, 6, by decide, by decide⟩
  · exact ⟨19, 2, by decide, by decide⟩
  · exact ⟨18, 0, by decide, by decide⟩
  · exact ⟨18, 1, by decide, by decide⟩
  · exact ⟨18, 2, by decide, by decide⟩
  · exact ⟨18, 3, by decide, by decide⟩
  · exact ⟨19, 0, by decide, by decide⟩
  · exact ⟨19, 1, by decide, by decide⟩
  · exact ⟨20, 0, by decide, by decide⟩
  · exact ⟨18, 7, by decide, by decide⟩

/-- A translated offset is always an index of `smartxx_raw`. -/
theorem bank_translate_lt (b : Nat) (hb : b ≤ 10) :
    ∃ bank, SmartxxBank[b]? = some bank ∧
      ∀ x, bank_translate bank x < SMARTXX_FLASH_SIZE := by
  obtain ⟨k, m, hk, hsz⟩ := bank_table_aligned b hb
  refine ⟨_, hk, fun x => ?_⟩
  rw [bank_translate_aligned]
  have := Nat.mod_lt x (Nat.two_pow_pos k)
  omega

/-! ## Bit-level facts -/

/-- Masking with `2 ^ i` is non-zero exactly when bit `i` is set. -/
theorem and_two_pow_ne_zero (v i : Nat) : decide ((v &&& 2 ^ i) ≠ 0) = v.testBit i := by
  cases hb : v.testBit i
  · have : v &&& 2 ^ i = 0 := by
      apply Nat.eq_of_testBit_eq
      intro j
      rw [Nat.testBit_and, Nat.testBit_two_pow, Nat.zero_testBit]
      by_cases hij : i = j
      · subst hij; simp [hb]
      · simp [hij]
    simp [this]
  · have : (v &&& 2 ^ i).testBit i = true := by
      rw [Nat.testBit_and, Nat.testBit_two_pow_self, hb]; rfl
    have hne : v &&& 2 ^ i ≠ 0 := by
      intro h0
      rw [h0, Nat.zero_testBit] at this
      exact Bool.noConfusion this
    simp [hne]

/-- The mask of bit 7 is zero exactly when bit 7 is clear. -/
theorem and_128_eq_zero (v : Nat) : (v &&& 128) = 0 ↔ v.testBit 7 = false := by
  have := and_two_pow_ne_zero v 7
  cases hb : v.testBit 7 <;> rw [hb] at this <;> simpa using this

/-- The status byte of register 1: its fields do not overlap, so the or of the
shifted fields is their sum. -/
theorem status_bits_or (r m1 m4 : Bool) (w : Nat) (hw : w < 16) :
    ((r.toNat <<< 7) ||| (m1.toNat <<< 5) ||| (m4.toNat <<< 4) ||| w) % 2 ^ 32
      = r.toNat * 128 + m1.toNat * 32 + m4.toNat * 16 + w := by
  interval_cases w <;> cases r <;> cases m1 <;> cases m4 <;> rfl

/-- The CFI table holds the same byte on the even and the odd lane of each pair. -/
theorem cfi_table_lanes : ∀ i : Fin 128,
    SmartxxFlashCFI.getD (2 * i.val) 0 = SmartxxFlashCFI.getD (2 * i.val + 1) 0 := by
  decide

/-- What `flash_read` returns in the CFI query state. -/
theorem flash_read_cfi (s : SmartxxState) (x sz : Nat)
    (h : s.flash_state = SMARTXX_MEMORY_STATE_CFI) :
    flash_read s x sz = .ok (SmartxxFlashCFI.getD
      ((if sz = 1 then x else (x <<< 1) % 2 ^ 64) % 256) 0) := by
  have hlen : SmartxxFlashCFI.length = 256 := rfl
  simp only [flash_read, h, reduceCtorEq, if_false, if_true, hlen]

/-! ## C1: bank translation -/

/-- C1: for every bank index `b` in 0..10 the table has an entry, and for every
logical offset `x` the translated offset `(x mod size) | offset` lies in
`[offset, offset + size)`, the window ends inside the 4 MiB image, and the
translation has period `size`. -/
theorem bank_translate_window (b : Nat) (hb : b ≤ 10) (x : Nat) :
    ∃ bank, SmartxxBank[b]? = some bank ∧
      bank_translate bank x = (x % bank.size) ||| bank.offset ∧
      bank.offset ≤ bank_translate bank x ∧
      bank_translate bank x < bank.offset + bank.size ∧
      bank.offset + bank.size ≤ 4 * 1024 * 1024 ∧
      bank_translate bank (x + bank.size) = bank_translate bank x := by
  obtain ⟨k, m, hk, hsz⟩ := bank_table_aligned b hb
  refine ⟨_, hk, rfl, ?_, ?_, hsz, ?_⟩
  · rw [bank_translate_aligned]; exact Nat.le_add_right _ _
  · rw [bank_translate_aligned]
    exact Nat.add_lt_add_left (Nat.mod_lt _ (Nat.two_pow_pos k)) _
  · rw [bank_translate_aligned, bank_translate_aligned, Nat.add_mod_right]

/-- C1 at bank 1 (the bootloader bank) and logical offset `0x40005`, one byte
past the first wrap of the 256 KiB window. -/
theorem bank_translate_window_witness :
    (1 ≤ 10) ∧
    ∃ bank, SmartxxBank[1]? = some bank ∧
      bank_translate bank 0x40005 = (0x40005 % bank.size) ||| bank.offset ∧
      bank.offset ≤ bank_translate bank 0x40005 ∧
      bank_translate bank 0x40005 < bank.offset + bank.size ∧
      bank.offset + bank.size ≤ 4 * 1024 * 1024 ∧
      bank_translate bank (0x40005 + bank.size) = bank_translate bank 0x40005 :=
  ⟨by decide, bank_translate_window 1 (by decide) 0x40005⟩

/-! ## C2: single-byte program round trip -/

/-- C2 fails as stated: in the program state, the single-byte write of `0xF0`
to offset `0x00` is taken as the reset, so nothing is programmed and the read
that follows returns the old byte `0xFF`, not `0xF0`. -/
theorem program_reset_byte_not_read_back :
    writing_device.flash_state = SMARTXX_MEMORY_STATE_WRITE ∧
    writing_device.bank_control ≤ 10 ∧
    ∃ s1, flash_write writing_device 0x00 0xF0 1 = .ok s1 ∧
      s1.flash_state = SMARTXX_MEMORY_STATE_NORMAL ∧
      s1.bank_control = writing_device.bank_control ∧
      s1.smartxx_raw = writing_device.smartxx_raw ∧
      flash_read s1 0x00 1 = .ok 0xFF ∧
      flash_read s1 0x00 1 ≠ .ok 0xF0 := by
  refine ⟨rfl, by decide, _, rfl, rfl, rfl, rfl, rfl, ?_⟩
  intro h
  cases h

/-- C2, amended: for every bank `B` in 0..10, every logical offset `O` and every
byte `V` other than the reset write (`O = 0` together with `V = 0xF0`), from a
device in the program state `flash_write(O, V, 1)` succeeds, leaves the device
in the normal state on the same bank, and `flash_read(O, 1)` then returns `V`. -/
theorem program_byte_round_trip (s : SmartxxState) (B O V : Nat)
    (hB : B ≤ 10) (hbank : s.bank_control = B) (hV : V < 256)
    (hw : s.flash_state = SMARTXX_MEMORY_STATE_WRITE)
    (hne : ¬ (O = 0 ∧ V = 0xF0)) :
    ∃ s1, flash_write s O V 1 = .ok s1 ∧
      s1.flash_state = SMARTXX_MEMORY_STATE_NORMAL ∧
      s1.bank_control = B ∧
      flash_read s1 O 1 = .ok V := by
  obtain ⟨bank, hbk, hlt⟩ := bank_translate_lt B hB
  have hO := hlt O
  refine ⟨commit s (fun a => if a = bank_translate bank O then V % 256 else s.smartxx_raw a),
    ?_, rfl, hbank, ?_⟩
  · have hnr : ¬ (O = 0 ∧ V = 240) := hne
    simp [flash_write, hnr, hw, hbank, hbk, store8, hO, Except.map]
  · simp [flash_read, commit, hbank, hbk, load8, hO, Nat.mod_eq_of_lt hV]

/-- C2, amended, on `writing_device`: byte `0x5A` at logical offset `0x12345`. -/
theorem program_byte_round_trip_witness :
    ∃ s1, flash_write writing_device 0x12345 0x5A 1 = .ok s1 ∧
      s1.flash_state = SMARTXX_MEMORY_STATE_NORMAL ∧
      s1.bank_control = 1 ∧
      flash_read s1 0x12345 1 = .ok 0x5A :=
  program_byte_round_trip writing_device 1 0x12345 0x5A (by decide) rfl (by decide) rfl
    (by decide)

/-! ## C3: reset -/

/-- C3: from every device state, `flash_write(0x00, 0xF0, 1)` succeeds and gives
the normal state with command cycle 1; the flash image and every control
register field are unchanged. -/
theorem reset_from_any_state (s : SmartxxState) :
    ∃ s1, flash_write s 0x00 0xF0 1 = .ok s1 ∧
      s1.flash_state = SMARTXX_MEMORY_STATE_NORMAL ∧ s1.flash_cycle = 1 ∧
      s1.smartxx_raw = s.smartxx_raw ∧
      s1.led = s.led ∧ s1.bank_control = s.bank_control ∧
      s1.sck = s.sck ∧ s1.cs = s.cs ∧ s1.mosi = s.mosi ∧
      s1.recovery = s.recovery ∧ s1.miso_1 = s.miso_1 ∧ s1.miso_4 = s.miso_4 :=
  ⟨_, rfl, rfl, rfl, rfl, rfl, rfl, rfl, rfl, rfl, rfl, rfl, rfl⟩

/-! ## C4: erase unlock sequence -/

/-- C4: from the normal state at command cycle 1, whatever the bank select, the
flash image and the last offset `A`, the six single-byte writes `0xAA@0xAAAA`,
`0x55@0x5555`, `0x80@0xAAAA`, `0xAA@0xAAAA`, `0x55@0x5555`, `0x30@A` all succeed
and leave the device in the sector-erase state. -/
theorem erase_unlock_enters_sector_erase (s : SmartxxState) (A : Nat)
    (hs : s.flash_state = SMARTXX_MEMORY_STATE_NORMAL) (hc : s.flash_cycle = 1) :
    ∃ s1, flash_writes s [(0xAAAA, 0xAA, 1), (0x5555, 0x55, 1), (0xAAAA, 0x80, 1),
        (0xAAAA, 0xAA, 1), (0x5555, 0x55, 1), (A, 0x30, 1)] = .ok s1 ∧
      s1.flash_state = SMARTXX_MEMORY_STATE_SECTOR_ERASE := by
  simp [flash_writes, flash_write, hs, hc]

/-- C4 on the initial state set by `smartxx_realize`, with last offset `0x1000`. -/
theorem erase_unlock_enters_sector_erase_witness :
    ∃ s1, flash_writes (smartxx_realize writing_device (fun _ => 0xFF))
        [(0xAAAA, 0xAA, 1), (0x5555, 0x55, 1), (0xAAAA, 0x80, 1),
         (0xAAAA, 0xAA, 1), (0x5555, 0x55, 1), (0x1000, 0x30, 1)] = .ok s1 ∧
      s1.flash_state = SMARTXX_MEMORY_STATE_SECTOR_ERASE :=
  erase_unlock_enters_sector_erase (smartxx_realize writing_device (fun _ => 0xFF)) 0x1000
    rfl rfl

/-! ## C5: autoselect scenario -/

/-- C5: from the state set by `smartxx_realize` (any record, any flash dump),
the writes `0xAA@0xAAAA`, `0x55@0x5555`, `0x90@0xAAAA` (one byte each) succeed
and leave the device in the autoselect state; a read of offset 0 (any size) then
returns `0x01`, a read of offset 2 returns `0xC4`, and the write `0xF0@0x00`
returns the device to the normal state. -/
theorem autoselect_scenario (s0 : SmartxxState) (rom : Nat → Nat) (size0 size2 : Nat) :
    (smartxx_realize s0 rom).flash_state = SMARTXX_MEMORY_STATE_NORMAL ∧
    (smartxx_realize s0 rom).flash_cycle = 1 ∧
    ∃ s1, flash_writes (smartxx_realize s0 rom)
        [(0xAAAA, 0xAA, 1), (0x5555, 0x55, 1), (0xAAAA, 0x90, 1)] = .ok s1 ∧
      s1.flash_state = SMARTXX_MEMORY_STATE_AUTOSELECT ∧
      flash_read s1 0 size0 = .ok 0x01 ∧
      flash_read s1 2 size2 = .ok 0xC4 ∧
      ∃ s2, flash_write s1 0x00 0xF0 1 = .ok s2 ∧
        s2.flash_state = SMARTXX_MEMORY_STATE_NORMAL :=
  ⟨rfl, rfl, _, rfl, rfl, rfl, rfl, _, rfl, rfl⟩

/-! ## C6: autoselect identification -/

/-- C6: in the autoselect state, for every offset and every access size,
`flash_read` returns `0x01` at offset 0, `0xC4` at offset 2 and 0 at every other
offset; the result is a function of the offset alone. -/
theorem autoselect_read (s : SmartxxState) (offset size : Nat)
    (h : s.flash_state = SMARTXX_MEMORY_STATE_AUTOSELECT) :
    flash_read s offset size =
      .ok (if offset = 0 then 0x01 else if offset = 2 then 0xC4 else 0) := by
  simp only [flash_read, h, SMARTXX_FLASH_MANUF_ID, SMARTXX_FLASH_DEV_ID, reduceCtorEq, if_false,
    if_true]
  split_ifs <;> rfl

/-- C6 on `autoselect_device`: a four-byte read of offset 2 returns the device id. -/
theorem autoselect_read_witness :
    flash_read autoselect_device 2 4 = .ok 0xC4 :=
  autoselect_read autoselect_device 2 4 rfl

/-! ## C7: CFI lanes -/

/-- C7: in the CFI query state, a one-byte read of offset `o` returns entry
`o mod 256` of the CFI table (`0x51` at offset `0x20`); a read of size 2 or 4 at
offset `o` returns what a one-byte read at offset `2 * o` returns; and the
one-byte reads at offsets `2 * o` and `2 * o + 1` return the same byte. -/
theorem cfi_lane_duplication (s : SmartxxState) (o size : Nat)
    (h : s.flash_state = SMARTXX_MEMORY_STATE_CFI) (hsz : size = 2 ∨ size = 4) :
    flash_read s o 1 = .ok (SmartxxFlashCFI.getD (o % 256) 0) ∧
    flash_read s 0x20 1 = .ok 0x51 ∧
    flash_read s o size = flash_read s (2 * o) 1 ∧
    flash_read s (2 * o) 1 = flash_read s (2 * o + 1) 1 := by
  refine ⟨?_, ?_, ?_, ?_⟩
  · rw [flash_read_cfi s _ _ h]; simp
  · rw [flash_read_cfi s _ _ h]; rfl
  · have h1 : size ≠ 1 := by omega
    rw [flash_read_cfi s _ _ h, flash_read_cfi s _ _ h, if_neg h1, if_pos rfl,
      Nat.shiftLeft_eq]
    congr 2
    omega
  · rw [flash_read_cfi s _ _ h, flash_read_cfi s _ _ h, if_pos rfl, if_pos rfl]
    have e1 : 2 * o % 256 = 2 * (o % 128) := by omega
    have e2 : (2 * o + 1) % 256 = 2 * (o % 128) + 1 := by omega
    rw [e1, e2]
    exact congrArg Except.ok (cfi_table_lanes ⟨o % 128, Nat.mod_lt _ (by decide)⟩)

/-- C7 on `cfi_device`, offset `0x11` and size 2: the word read of `0x11` and the
byte reads of `0x22` and `0x23` all return `0x52`. -/
theorem cfi_lane_duplication_witness :
    flash_read cfi_device 0x11 1 = .ok 0xFF ∧
    flash_read cfi_device 0x20 1 = .ok 0x51 ∧
    flash_read cfi_device 0x11 2 = flash_read cfi_device 0x22 1 ∧
    flash_read cfi_device 0x22 1 = flash_read cfi_device 0x23 1 :=
  cfi_lane_duplication cfi_device 0x11 2 rfl (Or.inl rfl)

/-! ## C8: register 1 -/

/-- C8: for every device state and every value `v` with bit 7 clear (every
`v < 128` is one), `smartxx_io_write` to register 1 succeeds and sets
`bank_control = v mod 16`, `mosi`, `cs`, `sck` to bits 4, 5, 6 of `v`, leaving
`led`, `recovery`, `miso_1`, `miso_4` unchanged; `smartxx_io_read` of register 1
then returns `recovery * 128 + miso_1 * 32 + miso_4 * 16 + v mod 16`. -/
theorem register1_write_read (s : SmartxxState) (v size : Nat)
    (h7 : v.testBit 7 = false) :
    ∃ s1, smartxx_io_write s 1 v size = .ok s1 ∧
      s1.bank_control = v % 16 ∧
      s1.mosi = v.testBit 4 ∧ s1.cs = v.testBit 5 ∧ s1.sck = v.testBit 6 ∧
      s1.led = s.led ∧ s1.recovery = s.recovery ∧
      s1.miso_1 = s.miso_1 ∧ s1.miso_4 = s.miso_4 ∧
      smartxx_io_read s1 1 size
        = s.recovery.toNat * 128 + s.miso_1.toNat * 32 + s.miso_4.toNat * 16 + v % 16 := by
  have hbit7 : (v &&& (1 <<< 7)) = 0 := (and_128_eq_zero v).2 h7
  have hmod : v &&& 0xF = v % 16 := Nat.and_pow_two_sub_one_eq_mod v 4
  refine ⟨{ s with
              sck := decide ((v &&& (1 <<< 6)) ≠ 0)
              cs := decide ((v &&& (1 <<< 5)) ≠ 0)
              mosi := decide ((v &&& (1 <<< 4)) ≠ 0)
              bank_control := v &&& 0xF }, ?_, hmod, and_two_pow_ne_zero v 4,
            and_two_pow_ne_zero v 5, and_two_pow_ne_zero v 6, rfl, rfl, rfl, rfl, ?_⟩
  · simp only [smartxx_io_write, SMARTXX_REGISTER0, SMARTXX_REGISTER1, hbit7]
    rfl
  · have hlt : v % 16 < 16 := Nat.mod_lt _ (by decide)
    simp only [smartxx_io_read, SMARTXX_REGISTER0, SMARTXX_REGISTER1, hmod]
    exact status_bits_or _ _ _ _ hlt

/-- C8 on `writing_device` with `v = 0x5A` (bits 6, 4, 3 and 1 set): bank 10,
`mosi` and `sck` set, `cs` clear, and the read returns `0x8A`: the recovery bit
and the bank, without the written bits 4 and 6. -/
theorem register1_write_read_witness :
    ∃ s1, smartxx_io_write writing_device 1 0x5A 1 = .ok s1 ∧
      s1.bank_control = 10 ∧
      s1.mosi = true ∧ s1.cs = false ∧ s1.sck = true ∧
      s1.led = 1 ∧ s1.recovery = true ∧
      s1.miso_1 = false ∧ s1.miso_4 = false ∧
      smartxx_io_read s1 1 1 = 0x8A :=
  register1_write_read writing_device 0x5A 1 (by decide)

/-! ## C9: register 0 read -/

/-- C9: `smartxx_io_read` of register 0 returns `0x55` in every device state, so
it is the same in any two states; in particular after the register-0 write of
`0b00000101`, which succeeds and sets `led` to 5, the read still returns `0x55`. -/
theorem register0_read_constant (s t : SmartxxState) (size : Nat) :
    smartxx_io_read s 0 size = 0x55 ∧
    smartxx_io_read s 0 size = smartxx_io_read t 0 size ∧
    ∃ s1, smartxx_io_write s 0 0b00000101 size = .ok s1 ∧ s1.led = 5 ∧
      smartxx_io_read s1 0 size = 0x55 :=
  ⟨rfl, rfl, _, rfl, rfl, rfl⟩

/-! ## C10: reserved register bits -/

/-- C10: `smartxx_io_write` ends in a failed assertion exactly when
`addr = 0` and `val >> 3` is non-zero, or `addr = 1` and bit 7 of `val` is set,
and it has no other way to fail; a register-0 write succeeds exactly when
`val < 8`, and then sets `led` to `val` and changes nothing else. -/
theorem io_write_fault_iff (s : SmartxxState) (addr val size : Nat) :
    (smartxx_io_write s addr val size = .error .assertion ↔
      (addr = 0 ∧ val >>> 3 ≠ 0) ∨ (addr = 1 ∧ val.testBit 7 = true)) ∧
    smartxx_io_write s addr val size ≠ .error .out_of_bounds ∧
    smartxx_io_write s 0 val size =
      (if val < 8 then .ok { s with led := val } else .error .assertion) := by
  have hbit7 := and_128_eq_zero val
  have hshift : val >>> 3 = 0 ↔ val < 8 := by
    rw [Nat.shiftRight_eq_div_pow]
    omega
  refine ⟨?_, ?_, ?_⟩
  · unfold smartxx_io_write
    simp only [SMARTXX_REGISTER0, SMARTXX_REGISTER1]
    by_cases h0 : addr = 0
    · subst h0
      by_cases hv : val >>> 3 = 0 <;> simp [hv]
    · by_cases h1 : addr = 1
      · subst h1
        cases hb : val.testBit 7
        · simp [hbit7.2 hb]
        · have : ¬ (val &&& 128) = 0 := by
            intro h; rw [hbit7.1 h] at hb; exact Bool.noConfusion hb
          simp [this]
      · simp [h0, h1]
  · unfold smartxx_io_write
    split_ifs <;> simp
  · unfold smartxx_io_write
    simp only [SMARTXX_REGISTER0, if_true]
    by_cases hv : val < 8
    · have : val % 256 = val := Nat.mod_eq_of_lt (by omega)
      simp [hshift.2 hv, hv, this]
    · have : ¬ val >>> 3 = 0 := fun h => hv (hshift.1 h)
      simp [this, hv]

/-! ## Frame and invariant facts -/

/-- Outside the program state a flash write of a size other than 1 is ignored. -/
theorem flash_write_ignored_size (s : SmartxxState) (o v sz : Nat)
    (hw : s.flash_state ≠ SMARTXX_MEMORY_STATE_WRITE) (hsz : sz ≠ 1) :
    flash_write s o v sz = .ok s := by
  unfold flash_write
  simp only [hsz, and_false, if_false, hw]
  split <;> rfl

/-- A flash write that returns changes at most the protocol state, the command
cycle and the flash image. -/
theorem flash_write_shape (s s1 : SmartxxState) (o v sz : Nat)
    (h : flash_write s o v sz = .ok s1) :
    ∃ st c raw, s1 = { s with flash_state := st, flash_cycle := c, smartxx_raw := raw } := by
  unfold flash_write at h
  split at h
  · cases h; exact ⟨_, _, _, rfl⟩
  · split at h
    · split at h
      · cases h
      · simp only [store8, store16, store32] at h
        split_ifs at h <;> cases h <;> exact ⟨_, _, _, rfl⟩
    · split at h <;> (try split_ifs at h) <;> cases h <;> exact ⟨_, _, _, rfl⟩

/-- Outside the program state every flash write returns and keeps the image. -/
theorem flash_write_image_kept (s : SmartxxState) (o v sz : Nat)
    (hw : s.flash_state ≠ SMARTXX_MEMORY_STATE_WRITE) :
    ∃ s1, flash_write s o v sz = .ok s1 ∧ s1.smartxx_raw = s.smartxx_raw := by
  unfold flash_write
  simp only [hw, if_false]
  split
  · exact ⟨_, rfl, rfl⟩
  · split <;> (try split_ifs) <;> exact ⟨_, rfl, rfl⟩

/-! ## C11: unsupported access sizes -/

/-- C11, amended: for an access size other than 1, 2 and 4, a `flash_read` in
the normal state and a `flash_write` in the program state fail, with the failed
assertion when the bank select is in 0..10, so they return nothing and change
nothing; in every other protocol state such a `flash_read` returns a value and
such a `flash_write` succeeds and leaves the device exactly as it was. -/
theorem unsupported_size (s : SmartxxState) (offset value size : Nat)
    (hsz : size ≠ 1 ∧ size ≠ 2 ∧ size ≠ 4) :
    (s.flash_state = SMARTXX_MEMORY_STATE_NORMAL →
      ∃ e, flash_read s offset size = .error e) ∧
    (s.flash_state = SMARTXX_MEMORY_STATE_NORMAL → s.bank_control ≤ 10 →
      flash_read s offset size = .error .assertion) ∧
    (s.flash_state ≠ SMARTXX_MEMORY_STATE_NORMAL →
      ∃ r, flash_read s offset size = .ok r) ∧
    (s.flash_state = SMARTXX_MEMORY_STATE_WRITE →
      ∃ e, flash_write s offset value size = .error e) ∧
    (s.flash_state = SMARTXX_MEMORY_STATE_WRITE → s.bank_control ≤ 10 →
      flash_write s offset value size = .error .assertion) ∧
    (s.flash_state ≠ SMARTXX_MEMORY_STATE_WRITE →
      flash_write s offset value size = .ok s) := by
  obtain ⟨h1, h2, h4⟩ := hsz
  refine ⟨?_, ?_, ?_, ?_, ?_, ?_⟩
  · intro hn
    simp only [flash_read, hn, if_true, h1, h2, h4, if_false]
    split <;> exact ⟨_, rfl⟩
  · intro hn hb
    obtain ⟨bank, hbk, -⟩ := bank_translate_lt _ hb
    simp only [flash_read, hn, if_true, h1, h2, h4, if_false, hbk]
  · intro hn
    simp only [flash_read, hn, if_false]
    split_ifs <;> exact ⟨_, rfl⟩
  · intro hw
    simp only [flash_write, h1, and_false, if_false, hw, if_true, h2, h4]
    split <;> exact ⟨_, rfl⟩
  · intro hw hb
    obtain ⟨bank, hbk, -⟩ := bank_translate_lt _ hb
    simp only [flash_write, h1, and_false, if_false, hw, if_true, h2, h4, hbk]
  · intro hw
    exact flash_write_ignored_size s offset value size hw h1

/-- C11, amended, on concrete devices: sizes 3 and 8 in the normal, program and
CFI query states. -/
theorem unsupported_size_witness :
    flash_read normal_device 0x10 3 = .error .assertion ∧
    flash_write writing_device 0x10 0x77 8 = .error .assertion ∧
    flash_write normal_device 0x10 0x77 8 = .ok normal_device ∧
    (∃ r, flash_read cfi_device 0x10 3 = .ok r) :=
  ⟨(unsupported_size normal_device 0x10 0 3 (by decide)).2.1 rfl (by decide),
   (unsupported_size writing_device 0x10 0x77 8 (by decide)).2.2.2.2.1 rfl (by decide),
   (unsupported_size normal_device 0x10 0x77 8 (by decide)).2.2.2.2.2 (by decide),
   (unsupported_size cfi_device 0x10 0 3 (by decide)).2.2.1 (by decide)⟩

/-- C11 fails as stated: in the CFI query state a read of size 3 returns
`0x51`, in the autoselect state a read of size 8 returns the device id, and in
the normal state a write of size 3 succeeds and changes nothing. -/
theorem unsupported_size_not_always_fatal :
    flash_read cfi_device 0x10 3 = .ok 0x51 ∧
    flash_read autoselect_device 2 8 = .ok 0xC4 ∧
    flash_write normal_device 0xAAAA 0xAA 3 = .ok normal_device := by
  refine ⟨rfl, rfl, rfl⟩

/-! ## C12: the flash image outside the program state -/

/-- C12: for a device that is not in the program state, every access (flash
read, flash write, register read, register write) that returns leaves
`smartxx_raw` as it was; every flash write does return; and the write of `0x30`
at cycle 6 enters the sector-erase state without changing a byte. -/
theorem image_written_only_by_commit (s : SmartxxState) (a : Access)
    (hw : s.flash_state ≠ SMARTXX_MEMORY_STATE_WRITE) :
    (∀ s1, access s a = .ok s1 → s1.smartxx_raw = s.smartxx_raw) ∧
    (∀ o v sz, ∃ s1, flash_write s o v sz = .ok s1 ∧ s1.smartxx_raw = s.smartxx_raw) ∧
    (s.flash_cycle = 6 → ∀ o, ∃ s1, flash_write s o 0x30 1 = .ok s1 ∧
      s1.flash_state = SMARTXX_MEMORY_STATE_SECTOR_ERASE ∧
      s1.smartxx_raw = s.smartxx_raw) := by
  refine ⟨?_, fun o v sz => flash_write_image_kept s o v sz hw, ?_⟩
  · intro s1 h
    cases a with
    | flash_read o sz =>
      simp only [access] at h
      cases hr : flash_read s o sz with
      | error e => rw [hr] at h; cases h
      | ok r => rw [hr] at h; cases h; rfl
    | flash_write o v sz =>
      obtain ⟨s2, h2, hraw⟩ := flash_write_image_kept s o v sz hw
      simp only [access] at h
      rw [h2] at h
      cases h
      exact hraw
    | io_read ad sz => cases h; rfl
    | io_write ad val sz =>
      simp only [access, smartxx_io_write] at h
      split_ifs at h <;> cases h <;> rfl
  · intro hc o
    refine ⟨{ s with flash_state := SMARTXX_MEMORY_STATE_SECTOR_ERASE }, ?_, rfl, rfl⟩
    simp [flash_write, hw, hc]

/-- Every bank starts and ends at a multiple of 4, so a translated offset has
the alignment of the logical offset. -/
theorem bank_translate_mod4 (b : Nat) (hb : b ≤ 10) :
    ∃ bank, SmartxxBank[b]? = some bank ∧
      ∀ x, bank_translate bank x % 4 = x % 4 := by
  obtain ⟨k, m, hk, hsz⟩ := bank_table_aligned b hb
  have hk2 : 2 ≤ k := by
    interval_cases b <;> simp [SmartxxBank] at hk <;>
      (by_contra hlt; have : k = 0 ∨ k = 1 := by omega
       rcases this with rfl | rfl <;> simp at hk)
  refine ⟨_, hk, fun x => ?_⟩
  rw [bank_translate_aligned]
  obtain ⟨j, rfl⟩ : ∃ j, k = j + 2 := ⟨k - 2, by omega⟩
  have h4 : 2 ^ (j + 2) = 4 * 2 ^ j := by rw [pow_add]; ring
  rw [h4, Nat.mul_assoc, Nat.mul_add_mod, Nat.mod_mul_right_mod]

/-! ## C13: normal-state reads -/

/-- C13 fails as stated: on bank 0 over the image `a mod 256`, the two-byte
read of logical offset 1 returns 256 (the bytes at 0 and 1), while the bytes at
the translated offset 1 and at 2 make 513. -/
theorem normal_read_unaligned_differs :
    ramp_device.flash_state = SMARTXX_MEMORY_STATE_NORMAL ∧
    SmartxxBank[ramp_device.bank_control]? = some ⟨0, 1 * 1024 * 1024⟩ ∧
    bank_translate ⟨0, 1 * 1024 * 1024⟩ 1 = 1 ∧
    flash_read ramp_device 1 2 = .ok 256 ∧
    (∑ i ∈ Finset.range 2, ramp_device.smartxx_raw (1 + i) * 256 ^ i) = 513 ∧
    flash_read ramp_device 1 2 ≠
      .ok (∑ i ∈ Finset.range 2, ramp_device.smartxx_raw (1 + i) * 256 ^ i) := by
  have hsum : (∑ i ∈ Finset.range 2, ramp_device.smartxx_raw (1 + i) * 256 ^ i) = 513 := by
    simp [Finset.sum_range_succ, ramp_device]
  refine ⟨rfl, rfl, rfl, rfl, hsum, ?_⟩
  rw [hsum]
  intro h
  cases h

/-- C13, amended: for every bank `B` in 0..10, logical offset `O` and size `n`
in {1, 2, 4}, a normal-state `flash_read(O, n)` returns the little-endian value
of the `n` bytes of the `n`-aligned element that holds the translated offset
`p`, the sum over `i < n` of `image[n * (p / n) + i] * 256 ^ i`; when `O` is a
multiple of `n` this is the sum over `i < n` of `image[p + i] * 256 ^ i`. -/
theorem normal_read_little_endian (s : SmartxxState) (B O n : Nat)
    (hB : B ≤ 10) (hbank : s.bank_control = B)
    (hn : s.flash_state = SMARTXX_MEMORY_STATE_NORMAL)
    (hsz : n = 1 ∨ n = 2 ∨ n = 4) :
    ∃ bank, SmartxxBank[B]? = some bank ∧
      flash_read s O n = .ok (∑ i ∈ Finset.range n,
        s.smartxx_raw (n * (bank_translate bank O / n) + i) * 256 ^ i) ∧
      (O % n = 0 → flash_read s O n = .ok (∑ i ∈ Finset.range n,
        s.smartxx_raw (bank_translate bank O + i) * 256 ^ i)) := by
  obtain ⟨bank, hbk, hlt⟩ := bank_translate_lt B hB
  obtain ⟨bank2, hbk2, hmod⟩ := bank_translate_mod4 B hB
  have hb2 : bank2 = bank := by rw [hbk] at hbk2; cases hbk2; rfl
  subst hb2
  have hO := hlt O
  have hm := hmod O
  have hsize : SMARTXX_FLASH_SIZE = 4194304 := rfl
  rw [hsize] at hO
  have key : flash_read s O n = .ok (∑ i ∈ Finset.range n,
      s.smartxx_raw (n * (bank_translate bank2 O / n) + i) * 256 ^ i) := by
    rcases hsz with rfl | rfl | rfl
    · simp [flash_read, hn, hbank, hbk, load8, hsize, hO]
    · have hb : 2 * (bank_translate bank2 O / 2) + 1 < 4194304 := by omega
      simp [flash_read, hn, hbank, hbk, load16, hsize, hb, Finset.sum_range_succ]
      ring
    · have hb : 4 * (bank_translate bank2 O / 4) + 3 < 4194304 := by omega
      simp [flash_read, hn, hbank, hbk, load32, hsize, hb, Finset.sum_range_succ]
      ring
  refine ⟨bank2, hbk, key, fun hal => ?_⟩
  have hq : n * (bank_translate bank2 O / n) = bank_translate bank2 O := by
    rcases hsz with rfl | rfl | rfl <;> omega
  rw [key, hq]

/-! ## C20: multi-byte program round trip -/

/-- C20: for every bank `B` in 0..10, every logical offset `O`, aligned or not,
every size `n` in {2, 4} and every value `V`, from a device in the program state
`flash_write(O, V, n)` succeeds, leaves the device in the normal state on the
same bank, and `flash_read(O, n)` then returns `V mod 2 ^ (8 * n)`. -/
theorem program_wide_round_trip (s : SmartxxState) (B O V n : Nat)
    (hB : B ≤ 10) (hbank : s.bank_control = B)
    (hw : s.flash_state = SMARTXX_MEMORY_STATE_WRITE)
    (hsz : n = 2 ∨ n = 4) :
    ∃ s1, flash_write s O V n = .ok s1 ∧
      s1.flash_state = SMARTXX_MEMORY_STATE_NORMAL ∧
      s1.bank_control = B ∧
      flash_read s1 O n = .ok (V % 2 ^ (8 * n)) := by
  obtain ⟨bank, hbk, hlt⟩ := bank_translate_lt B hB
  have hO := hlt O
  have hsize : SMARTXX_FLASH_SIZE = 4194304 := rfl
  rw [hsize] at hO
  rcases hsz with rfl | rfl
  · have hb : 2 * (bank_translate bank O / 2) + 1 < 4194304 := by omega
    refine ⟨commit s (fun a => if 2 * (bank_translate bank O / 2) ≤ a ∧
        a < 2 * (bank_translate bank O / 2) + 2
        then byte_of V (a - 2 * (bank_translate bank O / 2)) else s.smartxx_raw a),
      ?_, rfl, hbank, ?_⟩
    · simp [flash_write, hw, hbank, hbk, store16, hsize, hb, Except.map]
    · simp [flash_read, commit, hbank, hbk, load16, hsize, hb, byte_of]
      omega
  · have hb : 4 * (bank_translate bank O / 4) + 3 < 4194304 := by omega
    refine ⟨commit s (fun a => if 4 * (bank_translate bank O / 4) ≤ a ∧
        a < 4 * (bank_translate bank O / 4) + 4
        then byte_of V (a - 4 * (bank_translate bank O / 4)) else s.smartxx_raw a),
      ?_, rfl, hbank, ?_⟩
    · simp [flash_write, hw, hbank, hbk, store32, hsize, hb, Except.map]
    · simp [flash_read, commit, hbank, hbk, load32, hsize, hb, byte_of]
      omega

/-- The cycle bounds, and cycle 6 in the sector-erase state, are kept by every
flash write that returns. -/
theorem flash_write_cycle_inv (s s1 : SmartxxState) (o v sz : Nat)
    (hi : 1 ≤ s.flash_cycle ∧ s.flash_cycle ≤ 6 ∧
      (s.flash_state = SMARTXX_MEMORY_STATE_SECTOR_ERASE → s.flash_cycle = 6))
    (h : flash_write s o v sz = .ok s1) :
    1 ≤ s1.flash_cycle ∧ s1.flash_cycle ≤ 6 ∧
      (s1.flash_state = SMARTXX_MEMORY_STATE_SECTOR_ERASE → s1.flash_cycle = 6) := by
  obtain ⟨h1, h6, hse⟩ := hi
  unfold flash_write at h
  split at h
  · cases h; simp
  · split at h
    · split at h
      · cases h
      · simp only [store8, store16, store32] at h
        split_ifs at h <;> cases h <;> simp [commit]
    · split at h <;> (try split_ifs at h) <;> cases h <;> simp_all

/-- The same invariant holds in every reachable state. -/
theorem reachable_cycle_inv (s : SmartxxState) (hr : Reachable s) :
    1 ≤ s.flash_cycle ∧ s.flash_cycle ≤ 6 ∧
      (s.flash_state = SMARTXX_MEMORY_STATE_SECTOR_ERASE → s.flash_cycle = 6) := by
  induction hr with
  | realize s0 rom => simp [smartxx_realize]
  | @access s s1 a _ hstep ih =>
    cases a with
    | flash_read o sz =>
      simp only [access] at hstep
      cases hr : flash_read s o sz with
      | error e => rw [hr] at hstep; cases hstep
      | ok r => rw [hr] at hstep; cases hstep; exact ih
    | flash_write o v sz => exact flash_write_cycle_inv s s1 o v sz ih hstep
    | io_read ad sz => cases hstep; exact ih
    | io_write ad val sz =>
      simp only [access, smartxx_io_write] at hstep
      split_ifs at hstep <;> cases hstep <;> exact ih

/-- A run of flash writes from a reachable state ends in a reachable state. -/
theorem reachable_flash_writes (ws : List (Nat × Nat × Nat)) (s s1 : SmartxxState)
    (hr : Reachable s) (h : flash_writes s ws = .ok s1) : Reachable s1 := by
  induction ws generalizing s with
  | nil => cases h; exact hr
  | cons w rest ih =>
    obtain ⟨o, v, sz⟩ := w
    simp only [flash_writes] at h
    cases hw : flash_write s o v sz with
    | error e => rw [hw] at h; cases h
    | ok s2 =>
      rw [hw] at h
      exact ih s2 (Reachable.access (.flash_write o v sz) hr hw) h

/-! ## C14: leaving the CFI query state -/

/-- C14 fails as stated: from the CFI query state entered by `0x98@0xAA` at
cycle 1, the three writes `0xAA@0xAAAA`, `0x55@0x5555`, `0x90@0xAAAA`, none of
them the reset, leave the device in the autoselect state. -/
theorem cfi_left_without_reset :
    flash_write normal_device 0xAA 0x98 1 = .ok cfi_device ∧
    cfi_device.flash_state = SMARTXX_MEMORY_STATE_CFI ∧
    (∀ w ∈ [(0xAAAA, 0xAA, 1), (0x5555, 0x55, 1), (0xAAAA, 0x90, 1)],
      ¬ (w.1 = 0x00 ∧ w.2.1 = 0xF0 ∧ w.2.2 = 1)) ∧
    ∃ s1, flash_writes cfi_device
        [(0xAAAA, 0xAA, 1), (0x5555, 0x55, 1), (0xAAAA, 0x90, 1)] = .ok s1 ∧
      s1.flash_state = SMARTXX_MEMORY_STATE_AUTOSELECT ∧
      s1.flash_state ≠ SMARTXX_MEMORY_STATE_CFI := by
  refine ⟨rfl, rfl, by decide, _, rfl, rfl, by decide⟩

/-- One flash write from the CFI query state. -/
theorem cfi_step (s : SmartxxState) (o v sz : Nat)
    (h : s.flash_state = SMARTXX_MEMORY_STATE_CFI) :
    ∃ s1, flash_write s o v sz = .ok s1 ∧
      (s1.flash_state = SMARTXX_MEMORY_STATE_CFI ↔
        ¬ ((o = 0x00 ∧ v = 0xF0 ∧ sz = 1) ∨
           (s.flash_cycle = 3 ∧ o = 0xAAAA ∧ (v = 0x90 ∨ v = 0xA0) ∧ sz = 1) ∨
           (s.flash_cycle = 6 ∧ v = 0x30 ∧ sz = 1))) := by
  unfold flash_write
  simp only [h, reduceCtorEq, if_false]
  split
  · next hr => exact ⟨_, rfl, by simp [hr]⟩
  · next hr =>
    split <;> (try split_ifs) <;> refine ⟨_, rfl, ?_⟩ <;> (simp_all; try omega)

/-- C14, amended: a flash write from the CFI query state returns, and the state
is still CFI query afterwards unless the write is the reset, or `0x90` or `0xA0`
at `0xAAAA` at cycle 3, or the value `0x30` at cycle 6 (all of size 1); so after
every finite sequence of flash writes none of which is the reset write,
`0x90@0xAAAA`, `0xA0@0xAAAA` or a one-byte write of `0x30`, the state is still
CFI query. -/
theorem cfi_persists (s : SmartxxState) (ws : List (Nat × Nat × Nat))
    (h : s.flash_state = SMARTXX_MEMORY_STATE_CFI)
    (hws : ∀ w ∈ ws, ¬ (w.1 = 0x00 ∧ w.2.1 = 0xF0 ∧ w.2.2 = 1) ∧
      ¬ (w.1 = 0xAAAA ∧ (w.2.1 = 0x90 ∨ w.2.1 = 0xA0) ∧ w.2.2 = 1) ∧
      ¬ (w.2.1 = 0x30 ∧ w.2.2 = 1)) :
    (∀ o v sz, ∃ s1, flash_write s o v sz = .ok s1 ∧
      (s1.flash_state = SMARTXX_MEMORY_STATE_CFI ↔
        ¬ ((o = 0x00 ∧ v = 0xF0 ∧ sz = 1) ∨
           (s.flash_cycle = 3 ∧ o = 0xAAAA ∧ (v = 0x90 ∨ v = 0xA0) ∧ sz = 1) ∨
           (s.flash_cycle = 6 ∧ v = 0x30 ∧ sz = 1)))) ∧
    ∃ s1, flash_writes s ws = .ok s1 ∧ s1.flash_state = SMARTXX_MEMORY_STATE_CFI := by
  refine ⟨fun o v sz => cfi_step s o v sz h, ?_⟩
  induction ws generalizing s with
  | nil => exact ⟨s, rfl, h⟩
  | cons w rest ih =>
    obtain ⟨o, v, sz⟩ := w
    obtain ⟨hnr, hnm, hne⟩ := hws (o, v, sz) (List.mem_cons_self _ _)
    obtain ⟨s2, hs2, hiff⟩ := cfi_step s o v sz h
    have hcfi : s2.flash_state = SMARTXX_MEMORY_STATE_CFI := by
      apply hiff.2
      rintro (hx | hx | hx)
      · exact hnr hx
      · exact hnm hx.2
      · exact hne hx.2
    obtain ⟨s3, hs3, hst⟩ := ih s2 hcfi (fun w hw => hws w (List.mem_cons_of_mem _ hw))
    exact ⟨s3, by simp only [flash_writes, hs2, hs3], hst⟩

/-! ## C15: the sector-erase state -/

/-- C15: from every reachable state in the sector-erase state, every finite
sequence of flash writes none of which is the reset write returns and ends in
the sector-erase state. -/
theorem sector_erase_terminal (s : SmartxxState) (ws : List (Nat × Nat × Nat))
    (hr : Reachable s) (h : s.flash_state = SMARTXX_MEMORY_STATE_SECTOR_ERASE)
    (hws : ∀ w ∈ ws, ¬ (w.1 = 0x00 ∧ w.2.1 = 0xF0 ∧ w.2.2 = 1)) :
    ∃ s1, flash_writes s ws = .ok s1 ∧
      s1.flash_state = SMARTXX_MEMORY_STATE_SECTOR_ERASE := by
  have hc : s.flash_cycle = 6 := (reachable_cycle_inv s hr).2.2 h
  clear hr
  induction ws generalizing s with
  | nil => exact ⟨s, rfl, h⟩
  | cons w rest ih =>
    obtain ⟨o, v, sz⟩ := w
    have hnr : ¬ (o = 0 ∧ v = 240 ∧ sz = 1) := hws (o, v, sz) (List.mem_cons_self _ _)
    have hstep : ∃ s2, flash_write s o v sz = .ok s2 ∧
        s2.flash_state = SMARTXX_MEMORY_STATE_SECTOR_ERASE ∧ s2.flash_cycle = 6 := by
      unfold flash_write
      simp only [h, hc, reduceCtorEq, if_false, hnr]
      split_ifs
      · exact ⟨_, rfl, rfl, rfl⟩
      · exact ⟨_, rfl, h, hc⟩
    obtain ⟨s2, hs2, hst, hcy⟩ := hstep
    obtain ⟨s3, hs3, hst3⟩ := ih s2 hst (fun w hw => hws w (List.mem_cons_of_mem _ hw)) hcy
    exact ⟨s3, by simp only [flash_writes, hs2, hs3], hst3⟩

/-- The device `sector_erase_device` is reachable: it is `normal_device` after
the erase unlock sequence. -/
theorem sector_erase_device_reachable : Reachable sector_erase_device :=
  reachable_flash_writes
    [(0xAAAA, 0xAA, 1), (0x5555, 0x55, 1), (0xAAAA, 0x80, 1),
     (0xAAAA, 0xAA, 1), (0x5555, 0x55, 1), (0x1000, 0x30, 1)]
    normal_device sector_erase_device (Reachable.realize writing_device (fun _ => 0xFF)) rfl

/-- C15 on `sector_erase_device`, with writes that would select other modes
from cycle 1 or 3 and a four-byte write of `0xF0` to offset 0. -/
theorem sector_erase_terminal_witness :
    ∃ s1, flash_writes sector_erase_device
        [(0xAA, 0x98, 1), (0xAAAA, 0xAA, 1), (0x5555, 0x55, 2), (0xAAAA, 0x90, 1),
         (0x00, 0xF0, 4), (0x2000, 0x30, 1)] = .ok s1 ∧
      s1.flash_state = SMARTXX_MEMORY_STATE_SECTOR_ERASE :=
  sector_erase_terminal sector_erase_device _ sector_erase_device_reachable rfl (by decide)

/-! ## C16: command cycle invariant -/

/-- C16: in every reachable state the command cycle is between 1 and 6, and a
flash write that returns leaves the cycle unchanged, adds exactly 1 to it, or
sets it to 1. -/
theorem command_cycle_invariant (s : SmartxxState) (hr : Reachable s) :
    (1 ≤ s.flash_cycle ∧ s.flash_cycle ≤ 6) ∧
    ∀ o v sz s1, flash_write s o v sz = .ok s1 →
      s1.flash_cycle = s.flash_cycle ∨ s1.flash_cycle = s.flash_cycle + 1 ∨
      s1.flash_cycle = 1 := by
  obtain ⟨h1, h6, -⟩ := reachable_cycle_inv s hr
  refine ⟨⟨h1, h6⟩, ?_⟩
  intro o v sz s1 h
  unfold flash_write at h
  split at h
  · cases h; simp
  · split at h
    · split at h
      · cases h
      · simp only [store8, store16, store32] at h
        split_ifs at h <;> cases h <;> simp [commit]
    · split at h <;> (try split_ifs at h) <;> cases h <;> simp_all

/-- C16 on `sector_erase_device` and the write `0x30@0x2000`. -/
theorem command_cycle_invariant_witness :
    (1 ≤ sector_erase_device.flash_cycle ∧ sector_erase_device.flash_cycle ≤ 6) ∧
    (sector_erase_device.flash_cycle = sector_erase_device.flash_cycle ∨
      sector_erase_device.flash_cycle = sector_erase_device.flash_cycle + 1 ∨
      sector_erase_device.flash_cycle = 1) :=
  ⟨(command_cycle_invariant sector_erase_device sector_erase_device_reachable).1,
   (command_cycle_invariant sector_erase_device sector_erase_device_reachable).2
     0x2000 0x30 1 sector_erase_device rfl⟩

/-! ## C17: the cycle after a terminal action -/

/-- C17 fails as stated: the write of `0x30` at cycle 6 enters the sector-erase
state and leaves the command cycle at 6, not 1. -/
theorem erase_entry_keeps_cycle :
    flash_writes normal_device
      [(0xAAAA, 0xAA, 1), (0x5555, 0x55, 1), (0xAAAA, 0x80, 1),
       (0xAAAA, 0xAA, 1), (0x5555, 0x55, 1)] = .ok cycle6_device ∧
    cycle6_device.flash_cycle = 6 ∧
    flash_write cycle6_device 0x1000 0x30 1 = .ok sector_erase_device ∧
    sector_erase_device.flash_state = SMARTXX_MEMORY_STATE_SECTOR_ERASE ∧
    sector_erase_device.flash_cycle = 6 ∧
    sector_erase_device.flash_cycle ≠ 1 := by
  refine ⟨rfl, rfl, rfl, rfl, rfl, by decide⟩

/-- C17, amended: the command cycle is 1 after a reset write and after a flash
write that commits program data in the program state (which returns for every
bank in 0..10 and size in {1, 2, 4}); the write of `0x30` at cycle 6 that enters
the sector-erase state leaves the command cycle at 6. -/
theorem cycle_after_terminal_action (s : SmartxxState) (o v sz : Nat) :
    (∃ s1, flash_write s 0x00 0xF0 1 = .ok s1 ∧ s1.flash_cycle = 1) ∧
    (s.flash_state = SMARTXX_MEMORY_STATE_WRITE →
      ∀ s1, flash_write s o v sz = .ok s1 → s1.flash_cycle = 1) ∧
    (s.flash_state = SMARTXX_MEMORY_STATE_WRITE → s.bank_control ≤ 10 →
      (sz = 1 ∨ sz = 2 ∨ sz = 4) →
      ∃ s1, flash_write s o v sz = .ok s1 ∧ s1.flash_cycle = 1) ∧
    (s.flash_state ≠ SMARTXX_MEMORY_STATE_WRITE → s.flash_cycle = 6 →
      ∃ s1, flash_write s o 0x30 1 = .ok s1 ∧
        s1.flash_state = SMARTXX_MEMORY_STATE_SECTOR_ERASE ∧ s1.flash_cycle = 6) := by
  have hcommit : s.flash_state = SMARTXX_MEMORY_STATE_WRITE →
      ∀ s1, flash_write s o v sz = .ok s1 → s1.flash_cycle = 1 := by
    intro hw s1 h
    unfold flash_write at h
    simp only [hw, if_true] at h
    split at h
    · cases h; rfl
    · split at h
      · cases h
      · simp only [store8, store16, store32] at h
        split_ifs at h <;> cases h <;> rfl
  refine ⟨⟨_, rfl, rfl⟩, hcommit, ?_, ?_⟩
  · intro hw hb hsz
    obtain ⟨bank, hbk, hlt⟩ := bank_translate_lt _ hb
    have hO := hlt o
    have hsize : SMARTXX_FLASH_SIZE = 4194304 := rfl
    rw [hsize] at hO
    have hex : ∃ s1, flash_write s o v sz = .ok s1 := by
      unfold flash_write
      simp only [hw, if_true, hbk]
      split
      · exact ⟨_, rfl⟩
      · rcases hsz with rfl | rfl | rfl
        · simp [store8, hsize, hO, Except.map]
        · have hb2 : 2 * (bank_translate bank o / 2) + 1 < 4194304 := by omega
          simp [store16, hsize, hb2, Except.map]
        · have hb4 : 4 * (bank_translate bank o / 4) + 3 < 4194304 := by omega
          simp [store32, hsize, hb4, Except.map]
    obtain ⟨s1, h1⟩ := hex
    exact ⟨s1, h1, hcommit hw s1 h1⟩
  · intro hw hc
    refine ⟨{ s with flash_state := SMARTXX_MEMORY_STATE_SECTOR_ERASE }, ?_, rfl, hc⟩
    simp [flash_write, hw, hc]

/-- C17, amended, on `writing_device` (a two-byte commit) and `cycle6_device`
(the erase byte). -/
theorem cycle_after_terminal_action_witness :
    (∃ s1, flash_write writing_device 0x12345 0x5A 2 = .ok s1 ∧ s1.flash_cycle = 1) ∧
    (∃ s1, flash_write cycle6_device 0x12345 0x30 1 = .ok s1 ∧
        s1.flash_state = SMARTXX_MEMORY_STATE_SECTOR_ERASE ∧ s1.flash_cycle = 6) :=
  ⟨(cycle_after_terminal_action writing_device 0x12345 0x5A 2).2.2.1 rfl (by decide)
      (Or.inr (Or.inl rfl)),
   (cycle_after_terminal_action cycle6_device 0x12345 0 0).2.2.2 (by decide) rfl⟩

/-! ## C18: unmatched command steps -/

/-- C18: outside the program state and at a cycle in 1..6, a flash write that
is not the reset and is not a command recognised at the current cycle returns
the device exactly as it was: state, cycle, image and registers. -/
theorem unmatched_step_ignored (s : SmartxxState) (o v sz : Nat)
    (hw : s.flash_state ≠ SMARTXX_MEMORY_STATE_WRITE)
    (hc : 1 ≤ s.flash_cycle ∧ s.flash_cycle ≤ 6)
    (hr : ¬ (o = 0x00 ∧ v = 0xF0 ∧ sz = 1))
    (hm : ¬ recognised s.flash_cycle o v sz) :
    flash_write s o v sz = .ok s := by
  unfold flash_write
  simp only [hw, if_false, hr]
  unfold recognised at hm
  split <;> (try split_ifs) <;> first | rfl | (exfalso; simp_all)

/-- C18 on `cycle6_device`: `0x55@0x5555`, a cycle-2 and cycle-5 step, is
ignored at cycle 6 and the cycle stays 6. -/
theorem unmatched_step_ignored_witness :
    flash_write cycle6_device 0x5555 0x55 1 = .ok cycle6_device :=
  unmatched_step_ignored cycle6_device 0x5555 0x55 1 (by decide) (by decide) (by decide)
    (by simp [recognised, cycle6_device, normal_device, smartxx_realize])

/-! ## C19: flash protocol and register block -/

/-- C19: a flash read and a register read leave the whole device record as it
was, a register write that returns leaves the protocol state and the command
cycle as they were, and a flash write that returns leaves `led`, `bank_control`,
`sck`, `cs`, `mosi`, `recovery`, `miso_1` and `miso_4` as they were. -/
theorem channels_independent (s : SmartxxState) (a b c : Nat) :
    (∀ s1, access s (.flash_read a b) = .ok s1 → s1 = s) ∧
    (∀ s1, access s (.io_read a b) = .ok s1 → s1 = s) ∧
    (∀ s1, smartxx_io_write s a b c = .ok s1 →
      s1.flash_state = s.flash_state ∧ s1.flash_cycle = s.flash_cycle) ∧
    (∀ s1, flash_write s a b c = .ok s1 →
      s1.led = s.led ∧ s1.bank_control = s.bank_control ∧ s1.sck = s.sck ∧
      s1.cs = s.cs ∧ s1.mosi = s.mosi ∧ s1.recovery = s.recovery ∧
      s1.miso_1 = s.miso_1 ∧ s1.miso_4 = s.miso_4) := by
  refine ⟨?_, ?_, ?_, ?_⟩
  · intro s1 h
    simp only [access] at h
    cases hr : flash_read s a b with
    | error e => rw [hr] at h; cases h
    | ok r => rw [hr] at h; cases h; rfl
  · intro s1 h
    cases h; rfl
  · intro s1 h
    simp only [smartxx_io_write] at h
    split_ifs at h <;> cases h <;> exact ⟨rfl, rfl⟩
  · intro s1 h
    obtain ⟨st, cy, raw, rfl⟩ := flash_write_shape s s1 a b c h
    exact ⟨rfl, rfl, rfl, rfl, rfl, rfl, rfl, rfl⟩

/-- C19 on `writing_device`: a register-1 write and a program commit. -/
theorem channels_independent_witness :
    (∃ s1, smartxx_io_write writing_device 1 0x5A 1 = .ok s1 ∧
      s1.flash_state = writing_device.flash_state ∧
      s1.flash_cycle = writing_device.flash_cycle) ∧
    (∃ s1, flash_write writing_device 0x12345 0x5A 1 = .ok s1 ∧
      s1.led = writing_device.led ∧ s1.bank_control = writing_device.bank_control ∧
      s1.sck = writing_device.sck ∧ s1.cs = writing_device.cs ∧
      s1.mosi = writing_device.mosi ∧ s1.recovery = writing_device.recovery ∧
      s1.miso_1 = writing_device.miso_1 ∧ s1.miso_4 = writing_device.miso_4) :=
  ⟨⟨_, rfl, (channels_independent writing_device 1 0x5A 1).2.2.1 _ rfl⟩,
   ⟨_, rfl, (channels_independent writing_device 0x12345 0x5A 1).2.2.2 _ rfl⟩⟩

/-- C12 on `cycle6_device`: the erase byte at offset `0x1000`. -/
theorem image_written_only_by_commit_witness :
    ∃ s1, flash_write cycle6_device 0x1000 0x30 1 = .ok s1 ∧
      s1.flash_state = SMARTXX_MEMORY_STATE_SECTOR_ERASE ∧
      s1.smartxx_raw = cycle6_device.smartxx_raw :=
  (image_written_only_by_commit cycle6_device (.flash_write 0x1000 0x30 1) (by decide)).2.2
    rfl 0x1000

/-- C13, amended, on `ramp_device`: a four-byte read of the aligned offset
`0x104`. -/
theorem normal_read_little_endian_witness :
    ∃ bank, SmartxxBank[0]? = some bank ∧
      flash_read ramp_device 0x104 4 = .ok (∑ i ∈ Finset.range 4,
        ramp_device.smartxx_raw (bank_translate bank 0x104 + i) * 256 ^ i) := by
  obtain ⟨bank, h1, -, h3⟩ :=
    normal_read_little_endian ramp_device 0 0x104 4 (by decide) rfl rfl (Or.inr (Or.inr rfl))
  exact ⟨bank, h1, h3 (by decide)⟩

/-- C14, amended, on `cfi_device`: unlock steps, an erase sub-sequence byte, a
two-byte `0x30` and a second CFI query keep the CFI query state. -/
theorem cfi_persists_witness :
    ∃ s1, flash_writes cfi_device
        [(0xAAAA, 0xAA, 1), (0x5555, 0x55, 1), (0xAAAA, 0x80, 1), (0x1234, 0x30, 2),
         (0xAA, 0x98, 1)] = .ok s1 ∧
      s1.flash_state = SMARTXX_MEMORY_STATE_CFI :=
  (cfi_persists cfi_device _ rfl (by decide)).2

/-- C20 on `writing_device`: the four-byte value `0xDEADBEEF` at the unaligned
logical offset `0x12347`. -/
theorem program_wide_round_trip_witness :
    ∃ s1, flash_write writing_device 0x12347 0xDEADBEEF 4 = .ok s1 ∧
      s1.flash_state = SMARTXX_MEMORY_STATE_NORMAL ∧
      s1.bank_control = 1 ∧
      flash_read s1 0x12347 4 = .ok (0xDEADBEEF % 2 ^ (8 * 4)) :=
  program_wide_round_trip writing_device 1 0x12347 0xDEADBEEF 4 (by decide) rfl rfl
    (Or.inr rfl)

end Smartxx
